import Mathlib

/-!
The SMC key client of syspower.

A shallow embedding of `src/syspower.cpp`: the wire frame `SMCParamStruct`,
the decoder `FromSMCFixedPoint`, and the class `SMCKey` with its
`CallSMCFunction` open/call/close bracket, together with the properties of
the decoder and of the session protocol.

Modelling conventions

* A C `float` is its IEEE-754 binary32 bit pattern (`F32`); arithmetic on
  floats is the IEEE operation: the exact rational result rounded to nearest,
  ties to even, with the usual special cases.
* The host is little-endian (the program targets Intel and Apple-silicon
  Macs), so `OSReadBigInt16` swaps bytes and a `float` load assembles its four
  bytes least-significant first.
* The controller (the IOKit user client behind `connect`) is an arbitrary
  state machine; every call made to it is appended to a trace.
-/

namespace Syspower

/-! ## IEEE-754 binary32 -/

/-- A C `float`, represented by its 32-bit pattern. -/
structure F32 where
  bits : Nat
deriving DecidableEq, Repr

namespace F32

/-- Sign bit (bit 31). -/
def sign (x : F32) : Nat := x.bits / 2 ^ 31 % 2

/-- Biased exponent field (bits 23..30). -/
def expField (x : F32) : Nat := x.bits / 2 ^ 23 % 256

/-- Fraction field (bits 0..22). -/
def mantissa (x : F32) : Nat := x.bits % 2 ^ 23

def isNaN (x : F32) : Bool := x.expField == 255 && x.mantissa != 0

def isInf (x : F32) : Bool := x.expField == 255 && x.mantissa == 0

def isZero (x : F32) : Bool := x.expField == 0 && x.mantissa == 0

/-- Magnitude of a finite pattern, as an exact rational. -/
def magnitude (x : F32) : ℚ :=
  if x.expField = 0 then (x.mantissa : ℚ) * (2 : ℚ) ^ (-149 : ℤ)
  else ((2 ^ 23 + x.mantissa : ℕ) : ℚ) * (2 : ℚ) ^ ((x.expField : ℤ) - 150)

/-- The real number a pattern denotes; `none` for infinities and NaNs. -/
def toRat (x : F32) : Option ℚ :=
  if x.expField = 255 then none
  else some (if x.sign = 1 then -x.magnitude else x.magnitude)

/-- Positive zero, the value of the C expression `0` converted to `float`. -/
def zero : F32 := ⟨0⟩

/-- Zero with the given sign bit. -/
def signedZero (s : Nat) : F32 := ⟨s * 2 ^ 31⟩

/-- Infinity with the given sign bit. -/
def inf (s : Nat) : F32 := ⟨s * 2 ^ 31 + 255 * 2 ^ 23⟩

/-- The default quiet NaN. -/
def nan : F32 := ⟨0x7FC00000⟩

/-- Round a rational to the nearest integer, ties to the even one. -/
def roundNearestEven (x : ℚ) : ℤ :=
  let f := ⌊x⌋
  let r := x - f
  if r < 1 / 2 then f
  else if 1 / 2 < r then f + 1
  else if f % 2 = 0 then f else f + 1

/-- Round a non-zero rational to binary32 (round to nearest, ties to even).
The significand is measured in units of `2 ^ (e - 23)` where `e` is the
exponent of the input clamped below at `-126`; adding it to the exponent
field lets a carry out of the significand bump the exponent, and lets a
subnormal significand (below `2 ^ 23`) land in exponent field `0`. -/
def ofRat (q : ℚ) : F32 :=
  let s : Nat := if q < 0 then 1 else 0
  let a : ℚ := |q|
  if a = 0 then signedZero s
  else
    let e : ℤ := max (Int.log 2 a) (-126)
    let m : ℤ := roundNearestEven (a / (2 : ℚ) ^ (e - 23))
    let field : Nat := ((e + 126) * 2 ^ 23 + m).toNat
    if 255 * 2 ^ 23 ≤ field then inf s else ⟨s * 2 ^ 31 + field⟩

/-- Conversion of a C integer to `float`. -/
def ofInt (n : ℤ) : F32 := ofRat n

/-- IEEE-754 division. -/
def div (x y : F32) : F32 :=
  let s : Nat := (x.sign + y.sign) % 2
  if x.isNaN || y.isNaN then nan
  else if x.isInf then (if y.isInf then nan else inf s)
  else if y.isInf then signedZero s
  else if y.isZero then (if x.isZero then nan else inf s)
  else if x.isZero then signedZero s
  else
    match x.toRat, y.toRat with
    | some a, some b => ofRat (a / b)
    | _, _ => nan

/-- What makes a pattern an ordinary non-zero number. -/
structure IsNormal (x : F32) (q : ℚ) : Prop where
  toRat_eq : x.toRat = some q
  sign_eq : x.sign = if q < 0 then 1 else 0
  isNaN_eq : x.isNaN = false
  isInf_eq : x.isInf = false
  isZero_eq : x.isZero = false

end F32

/-! ## The wire structure -/

/-- Selectors of `SMCParamStruct`'s anonymous enum. -/
def kSMCUserClientOpen : Nat := 0
def kSMCUserClientClose : Nat := 1
def kSMCHandleYPCEvent : Nat := 2
def kSMCReadKey : Nat := 5
def kSMCGetKeyInfo : Nat := 9

/-- The IOKit status `kIOReturnSuccess`. -/
def kIOReturnSuccess : Nat := 0

/-- The `SMCParamStruct::SMCKey` enumerators: the four-character constants
`'PSTR'`, `'PCPC'`, `'PCPG'`, `'PG0R'`, `'PG1R'`. -/
def SMCKeyId.TotalPower : Nat := 0x50535452
def SMCKeyId.CPUPower : Nat := 0x50435043
def SMCKeyId.iGPUPower : Nat := 0x50435047
def SMCKeyId.GPU0Power : Nat := 0x50473052
def SMCKeyId.GPU1Power : Nat := 0x50473152

/-- The `SMCParamStruct::DataType` enumerators: the four-character constants
`'flt '`, `'sp78'`, `'sp87'`, `'spa5'`. The field holding one is a `uint32_t`
written by the controller, so any 32-bit value can occur. -/
def DataType.flt : Nat := 0x666C7420
def DataType.sp78 : Nat := 0x73703738
def DataType.sp87 : Nat := 0x73703837
def DataType.spa5 : Nat := 0x73706135

structure SMCVersion where
  major : Nat := 0
  minor : Nat := 0
  build : Nat := 0
  reserved : Nat := 0
  release : Nat := 0
deriving DecidableEq

structure SMCPLimitData where
  version : Nat := 0
  length : Nat := 0
  cpuPLimit : Nat := 0
  gpuPLimit : Nat := 0
  memPLimit : Nat := 0
deriving DecidableEq

structure SMCKeyInfoData where
  dataSize : Nat := 0
  dataType : Nat := 0
  dataAttributes : Nat := 0
deriving DecidableEq

/-- The request/response frame. A value-initialised frame (`SMCParamStruct x{}`)
is `{}`: every field zero. -/
structure SMCParamStruct where
  key : Nat := 0
  vers : SMCVersion := {}
  pLimitData : SMCPLimitData := {}
  keyInfo : SMCKeyInfoData := {}
  result : Nat := 0
  status : Nat := 0
  data8 : Nat := 0
  data32 : Nat := 0
  bytes : Fin 32 → Fin 256 := fun _ => 0
deriving DecidableEq

/-- Memory as seen through a `uint8_t*`: the byte at each offset. -/
abbrev BytePtr := Nat → Fin 256

/-- Array-to-pointer decay of `out.bytes`; offsets past the array are outside
the object and read as zero here. -/
def SMCParamStruct.bytesPtr (p : SMCParamStruct) : BytePtr :=
  fun i => if h : i < 32 then p.bytes ⟨i, h⟩ else 0

/-! ## Decoding -/

/-- The IOKit helper `OSReadBigInt16(base, offset)`: the unsigned 16-bit
big-endian value at `base + offset`. -/
def OSReadBigInt16 (base : BytePtr) (offset : Nat) : Nat :=
  (base offset).val * 256 + (base (offset + 1)).val

/-- The conversion `static_cast<int16_t>` of a 16-bit pattern. -/
def toInt16 (u : Nat) : ℤ :=
  if u % 2 ^ 16 < 2 ^ 15 then (u % 2 ^ 16 : ℕ) else (u % 2 ^ 16 : ℕ) - 2 ^ 16

/-- Reduction of an integer to the 32-bit two's-complement `int` range. -/
def wrapInt32 (n : ℤ) : ℤ :=
  if n % 2 ^ 32 < 2 ^ 31 then n % 2 ^ 32 else n % 2 ^ 32 - 2 ^ 32

/-- The `int` expression `1 << fraction_bits`. C++ defines it for shift
counts below the width of `int`; the count is left unrestricted here and the
result reduced to 32 bits. -/
def shiftLeftOne (fraction_bits : Nat) : ℤ := wrapInt32 (2 ^ fraction_bits)

/-- The source function `FromSMCFixedPoint`:
`static_cast<int16_t>(OSReadBigInt16(bytes, 0)) / static_cast<float>(1 << fraction_bits)`.
The `int16_t` is promoted to `int` and converted to `float` for the division. -/
def FromSMCFixedPoint (bytes : BytePtr) (fraction_bits : Nat) : F32 :=
  F32.div (F32.ofInt (toInt16 (OSReadBigInt16 bytes 0)))
    (F32.ofInt (shiftLeftOne fraction_bits))

/-- The load `*reinterpret_cast<float*>(bytes)`: four bytes assembled
least-significant first. -/
def loadFloat (bytes : BytePtr) : F32 :=
  ⟨(bytes 0).val + (bytes 1).val * 2 ^ 8 + (bytes 2).val * 2 ^ 16 + (bytes 3).val * 2 ^ 24⟩

/-! ## The controller -/

/-- The user client behind an `io_object_t`: a state machine answering the two
IOKit entry points the program uses. `callMethod s connect selector` is
`IOConnectCallMethod` with no arguments; `callStructMethod s connect selector
input output` is `IOConnectCallStructMethod`, which returns a status and the
new contents of the caller's output frame. -/
structure Controller (σ : Type) where
  callMethod : σ → Nat → Nat → Nat × σ
  callStructMethod : σ → Nat → Nat → SMCParamStruct → SMCParamStruct → (Nat × SMCParamStruct) × σ

/-- One call made to the controller. -/
inductive Op where
  | method (connect selector : Nat)
  | structMethod (connect selector : Nat) (input : SMCParamStruct)
deriving DecidableEq

def Op.isStructMethod : Op → Bool
  | .structMethod _ _ _ => true
  | .method _ _ => false

/-- The controller's state and the calls made so far, oldest first. -/
structure World (σ : Type) where
  state : σ
  trace : List Op

variable {σ : Type}

def IOConnectCallMethod (c : Controller σ) (connect selector : Nat) (w : World σ) :
    Nat × World σ :=
  ((c.callMethod w.state connect selector).1,
   ⟨(c.callMethod w.state connect selector).2, w.trace ++ [Op.method connect selector]⟩)

def IOConnectCallStructMethod (c : Controller σ) (connect selector : Nat)
    (input output : SMCParamStruct) (w : World σ) : (Nat × SMCParamStruct) × World σ :=
  ((c.callStructMethod w.state connect selector input output).1,
   ⟨(c.callStructMethod w.state connect selector input output).2,
    w.trace ++ [Op.structMethod connect selector input]⟩)

/-! ## The `SMCKey` class -/

structure SMCKey where
  connect_ : Nat
  key_ : Nat
  keyInfo_ : SMCKeyInfoData := {}
deriving DecidableEq

/-- What a member function leaves behind: its return value, the frame behind
the `out` pointer (where there is one), the object, and the world. -/
structure CallResult (σ : Type) where
  success : Bool
  out : SMCParamStruct
  self : SMCKey
  world : World σ

namespace SMCKey

def CallSMCFunction (c : Controller σ) (self : SMCKey) (which : Nat) (out : SMCParamStruct)
    (w : World σ) : CallResult σ :=
  if self.connect_ = 0 then ⟨false, out, self, w⟩
  else
    let opened := IOConnectCallMethod c self.connect_ kSMCUserClientOpen w
    if opened.1 ≠ 0 then ⟨false, out, { self with connect_ := 0 }, opened.2⟩
    else
      let input : SMCParamStruct :=
        { key := self.key_, keyInfo := { dataSize := self.keyInfo_.dataSize }, data8 := which }
      let called :=
        IOConnectCallStructMethod c self.connect_ kSMCHandleYPCEvent input out opened.2
      let success : Bool := called.1.1 == kIOReturnSuccess
      let closed := IOConnectCallMethod c self.connect_ kSMCUserClientClose called.2
      if closed.1 ≠ 0 then ⟨success, called.1.2, { self with connect_ := 0 }, closed.2⟩
      else ⟨success, called.1.2, self, closed.2⟩

/-- The constructor `SMCKey(connect, key)`. -/
def ctor (c : Controller σ) (connect key : Nat) (w : World σ) : SMCKey × World σ :=
  let r := CallSMCFunction c { connect_ := connect, key_ := key } kSMCGetKeyInfo {} w
  if r.success then ({ r.self with keyInfo_ := r.out.keyInfo }, r.world)
  else (r.self, r.world)

def Exists (self : SMCKey) : Bool := decide (self.keyInfo_.dataSize > 0)

/-- The `switch (keyInfo_.dataType)` of `Read` with the `return 0` that
follows it. -/
def ReadSwitch (dataType : Nat) (out : SMCParamStruct) : F32 :=
  if dataType = DataType.flt then loadFloat out.bytesPtr
  else if dataType = DataType.sp78 then FromSMCFixedPoint out.bytesPtr 8
  else if dataType = DataType.sp87 then FromSMCFixedPoint out.bytesPtr 7
  else if dataType = DataType.spa5 then FromSMCFixedPoint out.bytesPtr 5
  else F32.zero

/-- The member function `Read`: the value returned, the object and the world
afterwards. -/
def Read (c : Controller σ) (self : SMCKey) (w : World σ) : F32 × SMCKey × World σ :=
  if !self.Exists then (F32.zero, self, w)
  else
    let r := CallSMCFunction c self kSMCReadKey {} w
    if !r.success then (F32.zero, r.self, r.world)
    else (ReadSwitch self.keyInfo_.dataType r.out, r.self, r.world)

/-- The values of `n` consecutive `Read` calls (as in the polling loop of
`main`), with the object and the world after the last one. -/
def ReadN (c : Controller σ) : Nat → SMCKey → World σ → List F32 × SMCKey × World σ
  | 0, self, w => ([], self, w)
  | n + 1, self, w =>
    let r := Read c self w
    let rest := ReadN c n r.2.1 r.2.2
    (r.1 :: rest.1, rest.2.1, rest.2.2)

/-- The frame `CallSMCFunction` builds in its local `in`. -/
def inputFrame (self : SMCKey) (which : Nat) : SMCParamStruct :=
  { key := self.key_, keyInfo := { dataSize := self.keyInfo_.dataSize }, data8 := which }

end SMCKey

/-- A stateless stand-in for the controller: it accepts every open and close,
answers `kSMCGetKeyInfo` with the metadata `info` and `kSMCReadKey` with the
bytes `bytes`, and rejects any other request. -/
def mockController (info : SMCKeyInfoData) (bytes : Fin 32 → Fin 256) : Controller Unit where
  callMethod := fun _ _ _ => (kIOReturnSuccess, ())
  callStructMethod := fun _ _ _ input out =>
    if input.data8 = kSMCGetKeyInfo then ((kIOReturnSuccess, { out with keyInfo := info }), ())
    else if input.data8 = kSMCReadKey then ((kIOReturnSuccess, { out with bytes := bytes }), ())
    else ((1, out), ())

/-- A controller that accepts every open and close and rejects every struct
call. -/
def rejectingController : Controller Unit where
  callMethod := fun _ _ _ => (kIOReturnSuccess, ())
  callStructMethod := fun _ _ _ _ out => ((1, out), ())

/-- A controller that refuses every call, leaving the output frame alone. -/
def deadController : Controller Unit where
  callMethod := fun _ _ _ => (1, ())
  callStructMethod := fun _ _ _ _ out => ((1, out), ())

/-- A controller that accepts opens and struct calls (answering like
`mockController`) and fails every close. -/
def closeFailingController (info : SMCKeyInfoData) (bytes : Fin 32 → Fin 256) :
    Controller Unit where
  callMethod := fun _ _ selector =>
    (if selector = kSMCUserClientClose then 1 else kIOReturnSuccess, ())
  callStructMethod := (mockController info bytes).callStructMethod

/-- The little-endian bytes of the float `42.5` (pattern `0x422A0000`). -/
def bytesFloat42_5 : Fin 32 → Fin 256 :=
  fun i => if i = 2 then 0x2A else if i = 3 then 0x42 else 0

/-- The big-endian bytes of the 16-bit integer `300` (`0x012C`). -/
def bytesBig300 : Fin 32 → Fin 256 :=
  fun i => if i = 0 then 0x01 else if i = 1 then 0x2C else 0

/-! ## The controller's answers along one open/call/close bracket

Names for what the controller returns, and the state it moves to, at each of
the three calls of a bracket started in state `s` on handle `connect`. -/

namespace Controller

def openStatus (c : Controller σ) (s : σ) (connect : Nat) : Nat :=
  (c.callMethod s connect kSMCUserClientOpen).1

def afterOpen (c : Controller σ) (s : σ) (connect : Nat) : σ :=
  (c.callMethod s connect kSMCUserClientOpen).2

def callStatus (c : Controller σ) (s : σ) (connect : Nat) (input out : SMCParamStruct) : Nat :=
  (c.callStructMethod (c.afterOpen s connect) connect kSMCHandleYPCEvent input out).1.1

def callOutput (c : Controller σ) (s : σ) (connect : Nat) (input out : SMCParamStruct) :
    SMCParamStruct :=
  (c.callStructMethod (c.afterOpen s connect) connect kSMCHandleYPCEvent input out).1.2

def afterCall (c : Controller σ) (s : σ) (connect : Nat) (input out : SMCParamStruct) : σ :=
  (c.callStructMethod (c.afterOpen s connect) connect kSMCHandleYPCEvent input out).2

def closeStatus (c : Controller σ) (s : σ) (connect : Nat) (input out : SMCParamStruct) : Nat :=
  (c.callMethod (c.afterCall s connect input out) connect kSMCUserClientClose).1

def afterClose (c : Controller σ) (s : σ) (connect : Nat) (input out : SMCParamStruct) : σ :=
  (c.callMethod (c.afterCall s connect input out) connect kSMCUserClientClose).2

/-- The controller's answers do not depend on its state: each answer is a
fixed function of the request. -/
def Fixed (c : Controller σ) : Prop :=
  (∀ s s' connect selector, (c.callMethod s connect selector).1
      = (c.callMethod s' connect selector).1) ∧
  (∀ s s' connect selector input out, (c.callStructMethod s connect selector input out).1
      = (c.callStructMethod s' connect selector input out).1)

/-- The handle held by `k` is either null or one on which the controller
accepts every open and every close. -/
def Settled (c : Controller σ) (k : SMCKey) : Prop :=
  k.connect_ ≠ 0 → ∀ s, (c.callMethod s k.connect_ kSMCUserClientOpen).1 = 0 ∧
    (c.callMethod s k.connect_ kSMCUserClientClose).1 = 0

end Controller

/-! ## Facts about the binary32 model -/

namespace F32

theorem roundNearestEven_intCast (n : ℤ) : roundNearestEven (n : ℚ) = n := by
  simp [roundNearestEven]

theorem fields_of_bits (s E m : ℕ) (hs : s ≤ 1) (hE : E ≤ 255) (hm : m < 2 ^ 23) :
    sign ⟨s * 2 ^ 31 + (E * 2 ^ 23 + m)⟩ = s ∧
    expField ⟨s * 2 ^ 31 + (E * 2 ^ 23 + m)⟩ = E ∧
    mantissa ⟨s * 2 ^ 31 + (E * 2 ^ 23 + m)⟩ = m := by
  simp only [sign, expField, mantissa]
  norm_num
  omega

theorem log_of_normal (a : ℚ) (M : ℕ) (e : ℤ) (hM1 : 2 ^ 23 ≤ M) (hM2 : M < 2 ^ 24)
    (ha : a = M * (2 : ℚ) ^ (e - 23)) : Int.log 2 a = e := by
  have h2 : (0 : ℚ) < 2 := by norm_num
  have hpos : (0 : ℚ) < (2 : ℚ) ^ (e - 23) := zpow_pos h2 _
  have hMpos : (0 : ℚ) < M := by
    have : 0 < M := by omega
    exact_mod_cast this
  have hapos : 0 < a := by rw [ha]; exact mul_pos hMpos hpos
  have hlo : (2 : ℚ) ^ e ≤ a := by
    have : (2 : ℚ) ^ e = 2 ^ 23 * (2 : ℚ) ^ (e - 23) := by
      rw [← zpow_natCast, ← zpow_add₀ (by norm_num)]; congr 1; push_cast; ring
    rw [this, ha]
    apply mul_le_mul_of_nonneg_right _ hpos.le
    exact_mod_cast hM1
  have hhi : a < (2 : ℚ) ^ (e + 1) := by
    have : (2 : ℚ) ^ (e + 1) = 2 ^ 24 * (2 : ℚ) ^ (e - 23) := by
      rw [← zpow_natCast, ← zpow_add₀ (by norm_num)]; congr 1; push_cast; ring
    rw [this, ha]
    apply mul_lt_mul_of_pos_right _ hpos
    exact_mod_cast hM2
  have h1 : e ≤ Int.log 2 a := by
    have := (Int.zpow_le_iff_le_log (b := 2) (by norm_num) hapos (x := e)).1
    apply this; exact_mod_cast hlo
  have h3 : Int.log 2 a < e + 1 := by
    have := (Int.lt_zpow_iff_log_lt (b := 2) (by norm_num) hapos (x := e + 1)).1
    apply this; exact_mod_cast hhi
  omega

/-- Rounding is exact on a normalised significand: a rational with magnitude
`M * 2 ^ (e - 23)`, `2 ^ 23 ≤ M < 2 ^ 24`, `-126 ≤ e ≤ 127`, is encoded with its
sign, exponent field `e + 127` and fraction `M - 2 ^ 23`. -/
theorem ofRat_normal (q : ℚ) (M : ℕ) (e : ℤ) (hM1 : 2 ^ 23 ≤ M) (hM2 : M < 2 ^ 24)
    (he1 : -126 ≤ e) (he2 : e ≤ 127) (hq : |q| = M * (2 : ℚ) ^ (e - 23)) :
    ofRat q = ⟨(if q < 0 then 1 else 0) * 2 ^ 31 +
      ((e + 127).toNat * 2 ^ 23 + (M - 2 ^ 23))⟩ := by
  have hpos : (0 : ℚ) < (2 : ℚ) ^ (e - 23) := zpow_pos (by norm_num) _
  have hMpos : (0 : ℚ) < M := by
    have : 0 < M := by omega
    exact_mod_cast this
  have hane : |q| ≠ 0 := by rw [hq]; exact (mul_pos hMpos hpos).ne'
  have hlog : Int.log 2 |q| = e := log_of_normal |q| M e hM1 hM2 hq
  have hmax : max (Int.log 2 |q|) (-126) = e := by rw [hlog]; exact max_eq_left he1
  have hdiv : |q| / (2 : ℚ) ^ (e - 23) = ((M : ℤ) : ℚ) := by
    rw [hq]; field_simp
  have hfield : ((e + 126) * 2 ^ 23 + (M : ℤ)).toNat = (e + 127).toNat * 2 ^ 23 + (M - 2 ^ 23) := by
    omega
  have hlt : ¬ (255 * 2 ^ 23 ≤ (e + 127).toNat * 2 ^ 23 + (M - 2 ^ 23)) := by
    omega
  unfold ofRat
  simp only [hane, if_false, hmax, hdiv, roundNearestEven_intCast, hfield, hlt]

theorem toRat_normal (s E m : ℕ) (hs : s ≤ 1) (hE1 : 1 ≤ E) (hE2 : E ≤ 254) (hm : m < 2 ^ 23) :
    toRat ⟨s * 2 ^ 31 + (E * 2 ^ 23 + m)⟩ =
      some ((if s = 1 then -1 else 1) * (((2 ^ 23 + m : ℕ) : ℚ) * (2 : ℚ) ^ ((E : ℤ) - 150))) := by
  obtain ⟨h1, h2, h3⟩ := fields_of_bits s E m hs (by omega) hm
  have hE0 : E ≠ 0 := by omega
  have hE255 : E ≠ 255 := by omega
  unfold toRat magnitude
  rw [h1, h2, h3]
  simp only [hE0, hE255, if_false]
  split <;> simp

/-- A rational whose magnitude is a normalised significand times a power of two
in the normal range survives the round trip through binary32 unchanged. -/
theorem toRat_ofRat_normal (q : ℚ) (M : ℕ) (e : ℤ) (hM1 : 2 ^ 23 ≤ M) (hM2 : M < 2 ^ 24)
    (he1 : -126 ≤ e) (he2 : e ≤ 127) (hq : |q| = M * (2 : ℚ) ^ (e - 23)) :
    toRat (ofRat q) = some q := by
  rw [ofRat_normal q M e hM1 hM2 he1 he2 hq]
  have hs : (if q < 0 then 1 else 0 : ℕ) ≤ 1 := by split <;> omega
  rw [toRat_normal _ _ _ hs (by omega) (by omega) (by omega)]
  have hM : ((2 ^ 23 + (M - 2 ^ 23) : ℕ) : ℚ) = M := by
    have : 2 ^ 23 + (M - 2 ^ 23) = M := by omega
    rw [this]
  have hE : (((e + 127).toNat : ℤ) - 150) = e - 23 := by omega
  rw [hM, hE, ← hq]
  congr 1
  by_cases h : q < 0
  · simp [h, abs_of_neg h]
  · simp [h, abs_of_nonneg (not_lt.1 h)]

/-- Conversion to binary32 is exact on `± n * 2 ^ k` whenever `n` fits the
24-bit significand and the exponent stays in the normal range. -/
theorem ofRat_dyadic (q : ℚ) (n : ℕ) (k : ℤ) (hn0 : 0 < n) (hn : n < 2 ^ 24)
    (h1 : -126 ≤ (Nat.log 2 n : ℤ) + k) (h2 : (Nat.log 2 n : ℤ) + k ≤ 127)
    (hq : |q| = n * (2 : ℚ) ^ k) : IsNormal (ofRat q) q := by
  have hj1 : 2 ^ Nat.log 2 n ≤ n := Nat.pow_log_le_self 2 (by omega)
  have hj2 : n < 2 ^ (Nat.log 2 n + 1) := Nat.lt_pow_succ_log_self (by norm_num) n
  have hj : Nat.log 2 n < 24 := Nat.log_lt_of_lt_pow (by omega) hn
  generalize Nat.log 2 n = j at *
  have hM1 : 2 ^ 23 ≤ n * 2 ^ (23 - j) := by
    calc 2 ^ 23 = 2 ^ j * 2 ^ (23 - j) := by rw [← pow_add]; congr 1; omega
      _ ≤ n * 2 ^ (23 - j) := Nat.mul_le_mul_right _ hj1
  have hM2 : n * 2 ^ (23 - j) < 2 ^ 24 := by
    calc n * 2 ^ (23 - j) < 2 ^ (j + 1) * 2 ^ (23 - j) :=
          Nat.mul_lt_mul_of_pos_right hj2 (by positivity)
      _ = 2 ^ 24 := by rw [← pow_add]; congr 1; omega
  have hq2 : |q| = ((n * 2 ^ (23 - j) : ℕ) : ℚ) * (2 : ℚ) ^ ((j : ℤ) + k - 23) := by
    rw [hq]; push_cast
    rw [mul_assoc, ← zpow_natCast, ← zpow_add₀ (by norm_num)]
    congr 2; push_cast [Nat.cast_sub (by omega : j ≤ 23)]; ring
  have hbits := ofRat_normal q _ _ hM1 hM2 h1 h2 hq2
  have hs : (if q < 0 then 1 else 0 : ℕ) ≤ 1 := by split <;> omega
  obtain ⟨f1, f2, f3⟩ := fields_of_bits (if q < 0 then 1 else 0) ((j : ℤ) + k + 127).toNat
    (n * 2 ^ (23 - j) - 2 ^ 23) hs (by omega) (by omega)
  rw [← hbits] at f1 f2 f3
  have hE0 : ((j : ℤ) + k + 127).toNat ≠ 0 := by omega
  have hE255 : ((j : ℤ) + k + 127).toNat ≠ 255 := by omega
  refine ⟨toRat_ofRat_normal q _ _ hM1 hM2 h1 h2 hq2, f1, ?_, ?_, ?_⟩
  · simp [isNaN, f2, hE255]
  · simp [isInf, f2, hE255]
  · simp [isZero, f2, hE0]

theorem ofInt_zero : ofInt 0 = zero := by
  simp [ofInt, ofRat, signedZero, zero]

/-- Integers of magnitude below `2 ^ 24` convert to `float` without rounding. -/
theorem ofInt_exact (v : ℤ) (hv0 : v ≠ 0) (hv : v.natAbs < 2 ^ 24) :
    IsNormal (ofInt v) (v : ℚ) := by
  have hj : Nat.log 2 v.natAbs < 24 := Nat.log_lt_of_lt_pow (by omega) hv
  apply ofRat_dyadic (v : ℚ) v.natAbs 0 (by omega) hv (by omega) (by omega)
  rw [zpow_zero, mul_one, Nat.cast_natAbs, Int.cast_abs]

/-- The quotient of an integer of magnitude below `2 ^ 24` by `2 ^ k`, `k ≤ 126`,
converts to `float` without rounding. -/
theorem ofRat_div_pow_exact (v : ℤ) (k : ℕ) (hv0 : v ≠ 0) (hv : v.natAbs < 2 ^ 24)
    (hk : k ≤ 126) : IsNormal (ofRat ((v : ℚ) / 2 ^ k)) ((v : ℚ) / 2 ^ k) := by
  have hj : Nat.log 2 v.natAbs < 24 := Nat.log_lt_of_lt_pow (by omega) hv
  apply ofRat_dyadic _ v.natAbs (-(k : ℤ)) (by omega) hv (by omega) (by omega)
  rw [abs_div, abs_of_pos (by positivity : (0 : ℚ) < 2 ^ k), Nat.cast_natAbs, Int.cast_abs,
    zpow_neg, zpow_natCast, div_eq_mul_inv]

/-- Dividing two ordinary patterns rounds their exact quotient. -/
theorem div_of_isNormal (x y : F32) (a b : ℚ) (hx : IsNormal x a) (hy : IsNormal y b) :
    div x y = ofRat (a / b) := by
  unfold div
  simp [hx.isNaN_eq, hy.isNaN_eq, hx.isInf_eq, hy.isInf_eq, hx.isZero_eq, hy.isZero_eq,
    hx.toRat_eq, hy.toRat_eq]

/-- Positive zero divided by an ordinary positive pattern is positive zero. -/
theorem zero_div_of_isNormal (y : F32) (b : ℚ) (hb : 0 < b) (hy : IsNormal y b) :
    div zero y = zero := by
  have hs : y.sign = 0 := by rw [hy.sign_eq]; simp [not_lt.2 hb.le]
  have hz : zero.isNaN = false ∧ zero.isInf = false ∧ zero.isZero = true ∧ zero.sign = 0 := by
    simp [zero, isNaN, isInf, isZero, sign, expField, mantissa]
  unfold div
  simp only [hz.1, hz.2.1, hz.2.2.1, hz.2.2.2, hy.isNaN_eq, hy.isInf_eq, hy.isZero_eq, hs]
  simp [signedZero, zero]

end F32

theorem shiftLeftOne_eq (fb : ℕ) (hfb : fb ≤ 30) : shiftLeftOne fb = 2 ^ fb := by
  have h1 : (2 : ℤ) ^ fb ≤ 2 ^ 30 := pow_le_pow_right₀ (by norm_num) hfb
  have h0 : (0 : ℤ) < 2 ^ fb := by positivity
  unfold shiftLeftOne wrapInt32
  generalize (2 : ℤ) ^ fb = p at *
  norm_num at h1 ⊢
  have hm : p % 4294967296 = p := Int.emod_eq_of_lt h0.le (by omega)
  rw [hm]; simp; omega

theorem toInt16_bounds (u : ℕ) : -32768 ≤ toInt16 u ∧ toInt16 u ≤ 32767 := by
  unfold toInt16
  split <;> constructor <;> norm_num at * <;> omega

/-- The value of `FromSMCFixedPoint` for any shift count that keeps
`1 << fraction_bits` a positive `int`: the result denotes the signed 16-bit value divided by
`2 ^ fraction_bits`, carries that value's sign, and is `+0` for the value zero. -/
theorem FromSMCFixedPoint_value (bytes : BytePtr) (fb : ℕ) (hfb : fb ≤ 30) :
    (FromSMCFixedPoint bytes fb).toRat
        = some ((toInt16 (OSReadBigInt16 bytes 0) : ℚ) / 2 ^ fb) ∧
    (FromSMCFixedPoint bytes fb).sign
        = (if toInt16 (OSReadBigInt16 bytes 0) < 0 then 1 else 0) := by
  obtain ⟨hb1, hb2⟩ := toInt16_bounds (OSReadBigInt16 bytes 0)
  unfold FromSMCFixedPoint
  generalize toInt16 (OSReadBigInt16 bytes 0) = v at *
  have hy : F32.IsNormal (F32.ofInt (shiftLeftOne fb)) ((2 : ℚ) ^ fb) := by
    rw [shiftLeftOne_eq fb hfb]
    have h := F32.ofRat_dyadic ((2 : ℚ) ^ fb) 1 (fb : ℤ) (by norm_num) (by norm_num)
      (by simp; omega) (by simp; omega) (by simp)
    simpa [F32.ofInt] using h
  by_cases hv : v = 0
  · subst hv
    rw [F32.ofInt_zero, F32.zero_div_of_isNormal _ _ (by positivity) hy]
    simp [F32.zero, F32.toRat, F32.sign, F32.expField, F32.magnitude, F32.mantissa]
  · have hx := F32.ofInt_exact v hv (by omega)
    rw [F32.div_of_isNormal _ _ _ _ hx hy]
    have hr := F32.ofRat_div_pow_exact v fb hv (by omega) (by omega)
    refine ⟨hr.toRat_eq, ?_⟩
    rw [hr.sign_eq]
    have hp : (0 : ℚ) < 2 ^ fb := by positivity
    by_cases hneg : v < 0
    · have : (v : ℚ) / 2 ^ fb < 0 := div_neg_of_neg_of_pos (by exact_mod_cast hneg) hp
      simp [hneg, this]
    · have : ¬ ((v : ℚ) / 2 ^ fb < 0) :=
        not_lt.2 (div_nonneg (by exact_mod_cast not_lt.1 hneg) hp.le)
      simp [hneg, this]

/-- Reading back the big-endian two's-complement encoding of a 16-bit value. -/
theorem toInt16_OSReadBigInt16 (bytes : BytePtr) (v : ℤ) (hv1 : -32768 ≤ v) (hv2 : v ≤ 32767)
    (h0 : (bytes 0).val = (v % 65536).toNat / 256)
    (h1 : (bytes 1).val = (v % 65536).toNat % 256) :
    toInt16 (OSReadBigInt16 bytes 0) = v := by
  unfold toInt16 OSReadBigInt16
  simp only [Nat.zero_add, h0, h1]
  split <;> norm_num at * <;> omega

/-! ## Facts about the session bracket -/

namespace SMCKey

theorem CallSMCFunction_null (c : Controller σ) (self : SMCKey) (which : Nat)
    (out : SMCParamStruct) (w : World σ) (h : self.connect_ = 0) :
    CallSMCFunction c self which out w = ⟨false, out, self, w⟩ := by
  simp [CallSMCFunction, h]

theorem CallSMCFunction_openFailed (c : Controller σ) (self : SMCKey) (which : Nat)
    (out : SMCParamStruct) (w : World σ) (h : self.connect_ ≠ 0)
    (hopen : c.openStatus w.state self.connect_ ≠ 0) :
    CallSMCFunction c self which out w =
      ⟨false, out, { self with connect_ := 0 },
        ⟨c.afterOpen w.state self.connect_,
          w.trace ++ [Op.method self.connect_ kSMCUserClientOpen]⟩⟩ := by
  simp only [Controller.openStatus] at hopen
  simp [CallSMCFunction, h, IOConnectCallMethod, hopen, Controller.afterOpen]

theorem CallSMCFunction_opened (c : Controller σ) (self : SMCKey) (which : Nat)
    (out : SMCParamStruct) (w : World σ) (h : self.connect_ ≠ 0)
    (hopen : c.openStatus w.state self.connect_ = 0) :
    CallSMCFunction c self which out w =
      ⟨c.callStatus w.state self.connect_ (self.inputFrame which) out == kIOReturnSuccess,
        c.callOutput w.state self.connect_ (self.inputFrame which) out,
        { self with connect_ :=
            if c.closeStatus w.state self.connect_ (self.inputFrame which) out = 0
            then self.connect_ else 0 },
        ⟨c.afterClose w.state self.connect_ (self.inputFrame which) out,
          w.trace ++ [Op.method self.connect_ kSMCUserClientOpen,
            Op.structMethod self.connect_ kSMCHandleYPCEvent (self.inputFrame which),
            Op.method self.connect_ kSMCUserClientClose]⟩⟩ := by
  have hopen2 : ¬ (IOConnectCallMethod c self.connect_ kSMCUserClientOpen w).1 ≠ 0 := by
    simpa [IOConnectCallMethod, Controller.openStatus] using hopen
  unfold CallSMCFunction
  rw [if_neg h]
  simp only [if_neg hopen2]
  by_cases hclose : c.closeStatus w.state self.connect_ (self.inputFrame which) out = 0
  · rw [if_neg (by simpa [IOConnectCallMethod, IOConnectCallStructMethod, Controller.closeStatus,
      Controller.afterCall, Controller.afterOpen, inputFrame] using hclose), if_pos hclose]
    simp [IOConnectCallMethod, IOConnectCallStructMethod, Controller.afterClose,
      Controller.afterCall, Controller.afterOpen, Controller.callStatus, Controller.callOutput,
      inputFrame]
  · rw [if_pos (by simpa [IOConnectCallMethod, IOConnectCallStructMethod, Controller.closeStatus,
      Controller.afterCall, Controller.afterOpen, inputFrame] using hclose), if_neg hclose]
    simp [IOConnectCallMethod, IOConnectCallStructMethod, Controller.afterClose,
      Controller.afterCall, Controller.afterOpen, Controller.callStatus, Controller.callOutput,
      inputFrame]

theorem CallSMCFunction_keyInfo (c : Controller σ) (self : SMCKey) (which : Nat)
    (out : SMCParamStruct) (w : World σ) :
    (CallSMCFunction c self which out w).self.keyInfo_ = self.keyInfo_ ∧
    (CallSMCFunction c self which out w).self.key_ = self.key_ := by
  by_cases h : self.connect_ = 0
  · rw [CallSMCFunction_null c self which out w h]; exact ⟨rfl, rfl⟩
  · by_cases hopen : c.openStatus w.state self.connect_ = 0
    · rw [CallSMCFunction_opened c self which out w h hopen]; exact ⟨rfl, rfl⟩
    · rw [CallSMCFunction_openFailed c self which out w h hopen]; exact ⟨rfl, rfl⟩

theorem Read_absent (c : Controller σ) (self : SMCKey) (w : World σ)
    (h : self.keyInfo_.dataSize = 0) : Read c self w = (F32.zero, self, w) := by
  simp [Read, Exists, h]

theorem Read_null (c : Controller σ) (self : SMCKey) (w : World σ)
    (h : self.connect_ = 0) : Read c self w = (F32.zero, self, w) := by
  unfold Read
  rw [CallSMCFunction_null c self _ _ w h]
  simp

theorem Read_openFailed (c : Controller σ) (self : SMCKey) (w : World σ)
    (hsize : 0 < self.keyInfo_.dataSize) (h : self.connect_ ≠ 0)
    (hopen : c.openStatus w.state self.connect_ ≠ 0) :
    Read c self w = (F32.zero, { self with connect_ := 0 },
      ⟨c.afterOpen w.state self.connect_,
        w.trace ++ [Op.method self.connect_ kSMCUserClientOpen]⟩) := by
  unfold Read
  rw [CallSMCFunction_openFailed c self _ _ w h hopen]
  simp [Exists, hsize]

theorem Read_opened (c : Controller σ) (self : SMCKey) (w : World σ)
    (hsize : 0 < self.keyInfo_.dataSize) (h : self.connect_ ≠ 0)
    (hopen : c.openStatus w.state self.connect_ = 0) :
    Read c self w =
      (if c.callStatus w.state self.connect_ (self.inputFrame kSMCReadKey) {} = kIOReturnSuccess
        then ReadSwitch self.keyInfo_.dataType
          (c.callOutput w.state self.connect_ (self.inputFrame kSMCReadKey) {})
        else F32.zero,
       { self with connect_ :=
            if c.closeStatus w.state self.connect_ (self.inputFrame kSMCReadKey) {} = 0
            then self.connect_ else 0 },
       ⟨c.afterClose w.state self.connect_ (self.inputFrame kSMCReadKey) {},
          w.trace ++ [Op.method self.connect_ kSMCUserClientOpen,
            Op.structMethod self.connect_ kSMCHandleYPCEvent (self.inputFrame kSMCReadKey),
            Op.method self.connect_ kSMCUserClientClose]⟩) := by
  unfold Read
  rw [CallSMCFunction_opened c self _ _ w h hopen]
  by_cases hcall :
      c.callStatus w.state self.connect_ (self.inputFrame kSMCReadKey) {} = kIOReturnSuccess
  · simp [Exists, hsize, hcall]
  · simp [Exists, hsize, hcall]

theorem Read_keyInfo (c : Controller σ) (self : SMCKey) (w : World σ) :
    (Read c self w).2.1.keyInfo_ = self.keyInfo_ := by
  unfold Read
  have h := (CallSMCFunction_keyInfo c self kSMCReadKey {} w).1
  split
  · rfl
  · simp only []
    split <;> exact h

theorem ReadN_fixed (c : Controller σ) (n : ℕ) (self : SMCKey) (w : World σ)
    (h : ∀ w', Read c self w' = (F32.zero, self, w')) :
    ReadN c n self w = (List.replicate n F32.zero, self, w) := by
  induction n with
  | zero => rfl
  | succ n ih => simp [ReadN, h, ih, List.replicate_succ]

theorem ReadN_absent (c : Controller σ) (n : ℕ) (self : SMCKey) (w : World σ)
    (h : self.keyInfo_.dataSize = 0) :
    ReadN c n self w = (List.replicate n F32.zero, self, w) :=
  ReadN_fixed c n self w (fun w' => Read_absent c self w' h)

theorem ReadN_null (c : Controller σ) (n : ℕ) (self : SMCKey) (w : World σ)
    (h : self.connect_ = 0) :
    ReadN c n self w = (List.replicate n F32.zero, self, w) :=
  ReadN_fixed c n self w (fun w' => Read_null c self w' h)

theorem ctor_null (c : Controller σ) (key : Nat) (w : World σ) :
    ctor c 0 key w = ({ connect_ := 0, key_ := key }, w) := by
  unfold ctor
  rw [CallSMCFunction_null c _ _ _ w rfl]
  simp

theorem ctor_openFailed (c : Controller σ) (connect key : Nat) (w : World σ)
    (h : connect ≠ 0) (hopen : c.openStatus w.state connect ≠ 0) :
    ctor c connect key w = ({ connect_ := 0, key_ := key },
      ⟨c.afterOpen w.state connect, w.trace ++ [Op.method connect kSMCUserClientOpen]⟩) := by
  unfold ctor
  rw [CallSMCFunction_openFailed c _ _ _ w h hopen]
  simp

theorem ctor_opened (c : Controller σ) (connect key : Nat) (w : World σ)
    (h : connect ≠ 0) (hopen : c.openStatus w.state connect = 0) :
    ctor c connect key w =
      ({ connect_ :=
            if c.closeStatus w.state connect
                (inputFrame { connect_ := connect, key_ := key } kSMCGetKeyInfo) {} = 0
            then connect else 0,
         key_ := key,
         keyInfo_ :=
            if c.callStatus w.state connect
                (inputFrame { connect_ := connect, key_ := key } kSMCGetKeyInfo) {}
                = kIOReturnSuccess
            then (c.callOutput w.state connect
                (inputFrame { connect_ := connect, key_ := key } kSMCGetKeyInfo) {}).keyInfo
            else {} },
       ⟨c.afterClose w.state connect
            (inputFrame { connect_ := connect, key_ := key } kSMCGetKeyInfo) {},
          w.trace ++ [Op.method connect kSMCUserClientOpen,
            Op.structMethod connect kSMCHandleYPCEvent
              (inputFrame { connect_ := connect, key_ := key } kSMCGetKeyInfo),
            Op.method connect kSMCUserClientClose]⟩) := by
  unfold ctor
  rw [CallSMCFunction_opened c { connect_ := connect, key_ := key } _ _ w h hopen]
  by_cases hcall : c.callStatus w.state connect
      (inputFrame { connect_ := connect, key_ := key } kSMCGetKeyInfo) {} = kIOReturnSuccess
  · simp [hcall]
  · simp [hcall]

/-- Against a controller with fixed answers, the constructor leaves a handle
that is null or accepted at every open and close. -/
theorem ctor_settled (c : Controller σ) (hc : c.Fixed) (connect key : Nat) (w : World σ) :
    c.Settled (ctor c connect key w).1 := by
  by_cases hconn : connect = 0
  · subst hconn
    rw [ctor_null]; intro h; exact absurd rfl h
  · by_cases hopen : c.openStatus w.state connect = 0
    · rw [ctor_opened c connect key w hconn hopen]
      by_cases hclose : c.closeStatus w.state connect
          (inputFrame { connect_ := connect, key_ := key } kSMCGetKeyInfo) {} = 0
      · intro _ s
        simp only [if_pos hclose]
        refine ⟨?_, ?_⟩
        · rw [hc.1 s w.state]; exact hopen
        · rw [hc.1 s (c.afterCall w.state connect
            (inputFrame { connect_ := connect, key_ := key } kSMCGetKeyInfo) {})]
          exact hclose
      · intro h; simp [hclose] at h
    · rw [ctor_openFailed c connect key w hconn hopen]; intro h; exact absurd rfl h

/-- Against a controller with fixed answers and on a settled handle, `Read`
leaves the object as it was and its value does not depend on the world. -/
theorem Read_settled (c : Controller σ) (hc : c.Fixed) (k : SMCKey) (hk : c.Settled k)
    (w : World σ) :
    (Read c k w).2.1 = k ∧ ∀ w' : World σ, (Read c k w).1 = (Read c k w').1 := by
  by_cases hsize : k.keyInfo_.dataSize = 0
  · refine ⟨by rw [Read_absent c k w hsize], fun w' => ?_⟩
    rw [Read_absent c k w hsize, Read_absent c k w' hsize]
  · by_cases hconn : k.connect_ = 0
    · refine ⟨by rw [Read_null c k w hconn], fun w' => ?_⟩
      rw [Read_null c k w hconn, Read_null c k w' hconn]
    · have hopen : ∀ v : World σ, c.openStatus v.state k.connect_ = 0 :=
        fun v => (hk hconn v.state).1
      have hclose : ∀ v : World σ,
          c.closeStatus v.state k.connect_ (k.inputFrame kSMCReadKey) {} = 0 :=
        fun v => (hk hconn _).2
      have hans : ∀ v v' : World σ,
          c.callStatus v.state k.connect_ (k.inputFrame kSMCReadKey) {}
            = c.callStatus v'.state k.connect_ (k.inputFrame kSMCReadKey) {} ∧
          c.callOutput v.state k.connect_ (k.inputFrame kSMCReadKey) {}
            = c.callOutput v'.state k.connect_ (k.inputFrame kSMCReadKey) {} := by
        intro v v'
        have h := hc.2 (c.afterOpen v.state k.connect_) (c.afterOpen v'.state k.connect_)
          k.connect_ kSMCHandleYPCEvent (k.inputFrame kSMCReadKey) {}
        exact ⟨congrArg Prod.fst h, congrArg Prod.snd h⟩
      refine ⟨?_, fun w' => ?_⟩
      · rw [Read_opened c k w (by omega) hconn (hopen w), if_pos (hclose w)]
      · rw [Read_opened c k w (by omega) hconn (hopen w),
          Read_opened c k w' (by omega) hconn (hopen w'), (hans w w').1, (hans w w').2]

theorem ReadN_settled (c : Controller σ) (hc : c.Fixed) (n : ℕ) (k : SMCKey)
    (hk : c.Settled k) (w : World σ) : (ReadN c n k w).2.1 = k := by
  induction n generalizing w with
  | zero => rfl
  | succ n ih =>
    simp only [ReadN]
    rw [(Read_settled c hc k hk w).1]
    exact ih _

end SMCKey

/-! ## The claims -/

/-- C1. For `fraction_bits` 5, 7 or 8 and every signed 16-bit `v`, on a buffer
whose first two bytes are the big-endian two's-complement encoding of `v`,
`FromSMCFixedPoint` returns the float denoting exactly `v / 2 ^ fraction_bits`
(with the sign of `v`, so `+0` for `v = 0`), and the divisor
`1 << fraction_bits` is not zero. -/
theorem C1_FromSMCFixedPoint_exact (fraction_bits : ℕ) (v : ℤ) (bytes : BytePtr)
    (hfb : fraction_bits = 5 ∨ fraction_bits = 7 ∨ fraction_bits = 8)
    (hv1 : -32768 ≤ v) (hv2 : v ≤ 32767)
    (h0 : (bytes 0).val = (v % 65536).toNat / 256)
    (h1 : (bytes 1).val = (v % 65536).toNat % 256) :
    (FromSMCFixedPoint bytes fraction_bits).toRat = some ((v : ℚ) / 2 ^ fraction_bits) ∧
    (FromSMCFixedPoint bytes fraction_bits).sign = (if v < 0 then 1 else 0) ∧
    shiftLeftOne fraction_bits ≠ 0 := by
  have hfb30 : fraction_bits ≤ 30 := by omega
  have hval := FromSMCFixedPoint_value bytes fraction_bits hfb30
  rw [toInt16_OSReadBigInt16 bytes v hv1 hv2 h0 h1] at hval
  refine ⟨hval.1, hval.2, ?_⟩
  rw [shiftLeftOne_eq _ hfb30]
  positivity

/-- C1 at the minimum value: bytes `80 00` with 8 fraction bits give `-128`. -/
theorem C1_FromSMCFixedPoint_exact_witness :
    (FromSMCFixedPoint (fun i => if i = 0 then 0x80 else 0) 8).toRat
        = some (((-32768 : ℤ) : ℚ) / 2 ^ 8) ∧
    (FromSMCFixedPoint (fun i => if i = 0 then 0x80 else 0) 8).sign
        = (if (-32768 : ℤ) < 0 then 1 else 0) ∧
    shiftLeftOne 8 ≠ 0 :=
  C1_FromSMCFixedPoint_exact 8 (-32768) (fun i => if i = 0 then 0x80 else 0)
    (by decide) (by decide) (by decide) (by decide) (by decide)

/-- C2. On an object with resolved metadata (`dataSize > 0`) and a valid
handle, when the read transaction succeeds (open accepted, struct call
answered with `kIOReturnSuccess`) `Read` returns the decode chosen by the
cached tag: for `'flt '` the float whose pattern is the first four output
bytes, for `'sp78'`, `'sp87'`, `'spa5'` `FromSMCFixedPoint` of the output bytes
with 8, 7, 5 fraction bits. End to end: metadata (4, `'flt '`, 0) and the bytes
of 42.5 read as 42.5; metadata (2, `'sp78'`) and big-endian 300 read as
300/256 = 1.171875. -/
theorem C2_Read_decodes_by_tag :
    (∀ (σ : Type) (c : Controller σ) (self : SMCKey) (w : World σ),
      0 < self.keyInfo_.dataSize → self.connect_ ≠ 0 →
      c.openStatus w.state self.connect_ = 0 →
      c.callStatus w.state self.connect_ (self.inputFrame kSMCReadKey) {} = kIOReturnSuccess →
      ∀ out : SMCParamStruct,
        c.callOutput w.state self.connect_ (self.inputFrame kSMCReadKey) {} = out →
        (self.keyInfo_.dataType = DataType.flt →
          (SMCKey.Read c self w).1 = ⟨(out.bytes 0).val + (out.bytes 1).val * 2 ^ 8 +
            (out.bytes 2).val * 2 ^ 16 + (out.bytes 3).val * 2 ^ 24⟩) ∧
        (self.keyInfo_.dataType = DataType.sp78 →
          (SMCKey.Read c self w).1 = FromSMCFixedPoint out.bytesPtr 8) ∧
        (self.keyInfo_.dataType = DataType.sp87 →
          (SMCKey.Read c self w).1 = FromSMCFixedPoint out.bytesPtr 7) ∧
        (self.keyInfo_.dataType = DataType.spa5 →
          (SMCKey.Read c self w).1 = FromSMCFixedPoint out.bytesPtr 5)) ∧
    ((SMCKey.Read (mockController ⟨4, DataType.flt, 0⟩ bytesFloat42_5)
        (SMCKey.ctor (mockController ⟨4, DataType.flt, 0⟩ bytesFloat42_5) 1
          SMCKeyId.TotalPower ⟨(), []⟩).1
        (SMCKey.ctor (mockController ⟨4, DataType.flt, 0⟩ bytesFloat42_5) 1
          SMCKeyId.TotalPower ⟨(), []⟩).2).1.toRat = some 42.5) ∧
    ((SMCKey.Read (mockController ⟨2, DataType.sp78, 0⟩ bytesBig300)
        (SMCKey.ctor (mockController ⟨2, DataType.sp78, 0⟩ bytesBig300) 1
          SMCKeyId.TotalPower ⟨(), []⟩).1
        (SMCKey.ctor (mockController ⟨2, DataType.sp78, 0⟩ bytesBig300) 1
          SMCKeyId.TotalPower ⟨(), []⟩).2).1.toRat = some (300 / 256) ∧
      (300 / 256 : ℚ) = 1.171875) := by
  refine ⟨?_, ?_, ?_, ?_⟩
  · intro σ c self w hsize hconn hopen hcall out hout
    rw [SMCKey.Read_opened c self w hsize hconn hopen, if_pos hcall, hout]
    have hflt : DataType.flt ≠ DataType.sp78 ∧ DataType.flt ≠ DataType.sp87 ∧
        DataType.flt ≠ DataType.spa5 ∧ DataType.sp78 ≠ DataType.sp87 ∧
        DataType.sp78 ≠ DataType.spa5 ∧ DataType.sp87 ≠ DataType.spa5 := by decide
    refine ⟨fun h => ?_, fun h => ?_, fun h => ?_, fun h => ?_⟩
    · simp [SMCKey.ReadSwitch, h, loadFloat, SMCParamStruct.bytesPtr]
    · simp [SMCKey.ReadSwitch, h, hflt.1.symm]
    · simp [SMCKey.ReadSwitch, h, hflt.2.1.symm, hflt.2.2.2.1.symm]
    · simp [SMCKey.ReadSwitch, h, hflt.2.2.1.symm, hflt.2.2.2.2.1.symm, hflt.2.2.2.2.2.symm]
  · have h : (SMCKey.Read (mockController ⟨4, DataType.flt, 0⟩ bytesFloat42_5)
        (SMCKey.ctor (mockController ⟨4, DataType.flt, 0⟩ bytesFloat42_5) 1
          SMCKeyId.TotalPower ⟨(), []⟩).1
        (SMCKey.ctor (mockController ⟨4, DataType.flt, 0⟩ bytesFloat42_5) 1
          SMCKeyId.TotalPower ⟨(), []⟩).2).1 = ⟨0x422A0000⟩ := by decide
    rw [h]
    norm_num [F32.toRat, F32.expField, F32.sign, F32.magnitude, F32.mantissa]
  · have h : (SMCKey.Read (mockController ⟨2, DataType.sp78, 0⟩ bytesBig300)
        (SMCKey.ctor (mockController ⟨2, DataType.sp78, 0⟩ bytesBig300) 1
          SMCKeyId.TotalPower ⟨(), []⟩).1
        (SMCKey.ctor (mockController ⟨2, DataType.sp78, 0⟩ bytesBig300) 1
          SMCKeyId.TotalPower ⟨(), []⟩).2).1
        = FromSMCFixedPoint (SMCParamStruct.bytesPtr { bytes := bytesBig300 }) 8 := by rfl
    have hv : toInt16 (OSReadBigInt16 (SMCParamStruct.bytesPtr { bytes := bytesBig300 }) 0)
        = 300 := by decide
    rw [h, (FromSMCFixedPoint_value _ 8 (by norm_num)).1, hv]
    norm_num
  · norm_num

/-- C2 applied to the key the constructor builds against the 42.5 mock: the
read yields the pattern `0x422A0000`. -/
theorem C2_Read_decodes_by_tag_witness :
    (SMCKey.Read (mockController ⟨4, DataType.flt, 0⟩ bytesFloat42_5)
      ⟨1, SMCKeyId.TotalPower, ⟨4, DataType.flt, 0⟩⟩ ⟨(), []⟩).1 = ⟨0x422A0000⟩ :=
  (C2_Read_decodes_by_tag.1 Unit (mockController ⟨4, DataType.flt, 0⟩ bytesFloat42_5)
    ⟨1, SMCKeyId.TotalPower, ⟨4, DataType.flt, 0⟩⟩ ⟨(), []⟩ (by decide) (by decide) (by decide)
    (by decide) { bytes := bytesFloat42_5 } (by decide)).1 (by decide)

/-- C3. For every type tag other than `'flt '`, `'sp78'`, `'sp87'`, `'spa5'` the
switch of `Read` returns `+0` on every output frame, and so does `Read` itself
in every state, against every controller. -/
theorem C3_unknown_tag_reads_zero (dataType : Nat)
    (h : dataType ≠ DataType.flt ∧ dataType ≠ DataType.sp78 ∧ dataType ≠ DataType.sp87 ∧
      dataType ≠ DataType.spa5) :
    (∀ out : SMCParamStruct, SMCKey.ReadSwitch dataType out = F32.zero) ∧
    (∀ (σ : Type) (c : Controller σ) (self : SMCKey) (w : World σ),
      self.keyInfo_.dataType = dataType → (SMCKey.Read c self w).1 = F32.zero) := by
  have hsw : ∀ out : SMCParamStruct, SMCKey.ReadSwitch dataType out = F32.zero := by
    intro out
    simp [SMCKey.ReadSwitch, h.1, h.2.1, h.2.2.1, h.2.2.2]
  refine ⟨hsw, ?_⟩
  intro σ c self w hty
  unfold SMCKey.Read
  split
  · rfl
  · simp only []
    split
    · rfl
    · rw [hty]; exact hsw _

/-- C3 at the tag `'ui8 '` (`0x75693820`), on a frame of all-`0xFF` bytes. -/
theorem C3_unknown_tag_reads_zero_witness :
    SMCKey.ReadSwitch 0x75693820 { bytes := fun _ => 0xFF } = F32.zero :=
  (C3_unknown_tag_reads_zero 0x75693820 (by decide)).1 { bytes := fun _ => 0xFF }

/-- C4. When the constructor's metadata lookup fails at the struct call, the
object reports `Exists() = false`, its metadata stays zero, and any number of
later `Read` calls, against any controller, return `+0` and leave the object
and the world untouched: the trace still holds exactly one more struct call
than before the constructor ran. -/
theorem C4_failed_lookup_short_circuits (c : Controller σ) (connect key : Nat) (w : World σ)
    (hconn : connect ≠ 0) (hopen : c.openStatus w.state connect = 0)
    (hcall : c.callStatus w.state connect
      (SMCKey.inputFrame { connect_ := connect, key_ := key } kSMCGetKeyInfo) {}
        ≠ kIOReturnSuccess) :
    (SMCKey.ctor c connect key w).1.Exists = false ∧
    (SMCKey.ctor c connect key w).1.keyInfo_ = {} ∧
    ((SMCKey.ctor c connect key w).2.trace.filter Op.isStructMethod).length
      = (w.trace.filter Op.isStructMethod).length + 1 ∧
    ∀ (c' : Controller σ) (n : ℕ),
      SMCKey.ReadN c' n (SMCKey.ctor c connect key w).1 (SMCKey.ctor c connect key w).2
        = (List.replicate n F32.zero, (SMCKey.ctor c connect key w).1,
            (SMCKey.ctor c connect key w).2) ∧
      ((SMCKey.ReadN c' n (SMCKey.ctor c connect key w).1
          (SMCKey.ctor c connect key w).2).2.2.trace.filter Op.isStructMethod).length
        = (w.trace.filter Op.isStructMethod).length + 1 := by
  have hk := SMCKey.ctor_opened c connect key w hconn hopen
  rw [if_neg hcall] at hk
  have hinfo : (SMCKey.ctor c connect key w).1.keyInfo_ = {} := by rw [hk]
  have hcount : ((SMCKey.ctor c connect key w).2.trace.filter Op.isStructMethod).length
      = (w.trace.filter Op.isStructMethod).length + 1 := by
    rw [hk]; simp [List.filter_append, Op.isStructMethod]
  have hread : ∀ (c' : Controller σ) (n : ℕ),
      SMCKey.ReadN c' n (SMCKey.ctor c connect key w).1 (SMCKey.ctor c connect key w).2
        = (List.replicate n F32.zero, (SMCKey.ctor c connect key w).1,
            (SMCKey.ctor c connect key w).2) :=
    fun c' n => SMCKey.ReadN_absent c' n _ _ (by rw [hinfo])
  refine ⟨by simp [SMCKey.Exists, hinfo], hinfo, hcount, fun c' n => ⟨hread c' n, ?_⟩⟩
  rw [hread c' n]; exact hcount

/-- C4 on the rejecting controller, from an empty trace: after the constructor
and five reads the trace holds one struct call. -/
theorem C4_failed_lookup_short_circuits_witness :
    ((SMCKey.ReadN rejectingController 5
        (SMCKey.ctor rejectingController 1 SMCKeyId.TotalPower ⟨(), []⟩).1
        (SMCKey.ctor rejectingController 1 SMCKeyId.TotalPower ⟨(), []⟩).2).2.2.trace.filter
          Op.isStructMethod).length = 0 + 1 :=
  ((C4_failed_lookup_short_circuits rejectingController 1 SMCKeyId.TotalPower ⟨(), []⟩
    (by decide) (by decide) (by decide)).2.2.2 rejectingController 5).2

/-- C5. Once an open or a close performed by `CallSMCFunction` has failed, the
object's `connect_` is 0; from then on every `CallSMCFunction` on it, against
any controller and in any world, returns failure and leaves the output frame,
the object and the world (its trace included) as they were, and any number of
`Read` calls do the same, so `connect_` stays 0. -/
theorem C5_invalidation_is_one_way (c : Controller σ) (self : SMCKey) (which : Nat)
    (out : SMCParamStruct) (w : World σ) (hconn : self.connect_ ≠ 0)
    (hfail : c.openStatus w.state self.connect_ ≠ 0 ∨
      c.closeStatus w.state self.connect_ (self.inputFrame which) out ≠ 0) :
    (SMCKey.CallSMCFunction c self which out w).self.connect_ = 0 ∧
    (∀ (c' : Controller σ) (which' : Nat) (out' : SMCParamStruct) (w' : World σ),
      SMCKey.CallSMCFunction c' (SMCKey.CallSMCFunction c self which out w).self which' out' w'
        = ⟨false, out', (SMCKey.CallSMCFunction c self which out w).self, w'⟩) ∧
    (∀ (c' : Controller σ) (n : ℕ) (w' : World σ),
      SMCKey.ReadN c' n (SMCKey.CallSMCFunction c self which out w).self w'
        = (List.replicate n F32.zero, (SMCKey.CallSMCFunction c self which out w).self, w')) := by
  have h0 : (SMCKey.CallSMCFunction c self which out w).self.connect_ = 0 := by
    by_cases hopen : c.openStatus w.state self.connect_ = 0
    · rw [SMCKey.CallSMCFunction_opened c self which out w hconn hopen]
      have hclose : c.closeStatus w.state self.connect_ (self.inputFrame which) out ≠ 0 := by
        rcases hfail with h | h
        · exact absurd hopen h
        · exact h
      simp [hclose]
    · rw [SMCKey.CallSMCFunction_openFailed c self which out w hconn hopen]
  exact ⟨h0, fun c' which' out' w' => SMCKey.CallSMCFunction_null c' _ which' out' w' h0,
    fun c' n w' => SMCKey.ReadN_null c' n _ w' h0⟩

/-- C5 after a failed close: a later call against a controller that would
accept everything still fails at once. -/
theorem C5_invalidation_is_one_way_witness :
    SMCKey.CallSMCFunction (mockController ⟨4, DataType.flt, 0⟩ bytesFloat42_5)
      (SMCKey.CallSMCFunction (closeFailingController ⟨4, DataType.flt, 0⟩ bytesFloat42_5)
        ⟨1, SMCKeyId.TotalPower, {}⟩ kSMCGetKeyInfo {} ⟨(), []⟩).self kSMCReadKey {} ⟨(), []⟩
      = ⟨false, {}, (SMCKey.CallSMCFunction
          (closeFailingController ⟨4, DataType.flt, 0⟩ bytesFloat42_5)
          ⟨1, SMCKeyId.TotalPower, {}⟩ kSMCGetKeyInfo {} ⟨(), []⟩).self, ⟨(), []⟩⟩ :=
  (C5_invalidation_is_one_way (closeFailingController ⟨4, DataType.flt, 0⟩ bytesFloat42_5)
    ⟨1, SMCKeyId.TotalPower, {}⟩ kSMCGetKeyInfo {} ⟨(), []⟩ (by decide)
    (Or.inr (by decide))).2.1 (mockController ⟨4, DataType.flt, 0⟩ bytesFloat42_5)
    kSMCReadKey {} ⟨(), []⟩

/-- C6. On a valid handle whose open is accepted, `CallSMCFunction` returns
success exactly when the struct call returned `kIOReturnSuccess` and hands
back the controller's output frame, whatever the close answers; the close
answer decides only whether `connect_` is kept or zeroed. When the struct call
succeeded and the close failed, the constructor still stores the returned
metadata and `Read` still returns the decoded value, and the handle is
invalid afterwards. -/
theorem C6_failed_close_does_not_mask :
    (∀ (c : Controller σ) (self : SMCKey) (which : Nat) (out : SMCParamStruct) (w : World σ),
      self.connect_ ≠ 0 → c.openStatus w.state self.connect_ = 0 →
      ((SMCKey.CallSMCFunction c self which out w).success = true ↔
        c.callStatus w.state self.connect_ (self.inputFrame which) out = kIOReturnSuccess) ∧
      (SMCKey.CallSMCFunction c self which out w).out
        = c.callOutput w.state self.connect_ (self.inputFrame which) out ∧
      (SMCKey.CallSMCFunction c self which out w).self
        = { self with connect_ :=
              if c.closeStatus w.state self.connect_ (self.inputFrame which) out = 0
              then self.connect_ else 0 }) ∧
    (∀ (c : Controller σ) (connect key : Nat) (w : World σ),
      connect ≠ 0 → c.openStatus w.state connect = 0 →
      c.callStatus w.state connect
        (SMCKey.inputFrame { connect_ := connect, key_ := key } kSMCGetKeyInfo) {}
          = kIOReturnSuccess →
      c.closeStatus w.state connect
        (SMCKey.inputFrame { connect_ := connect, key_ := key } kSMCGetKeyInfo) {} ≠ 0 →
      (SMCKey.ctor c connect key w).1 =
        { connect_ := 0, key_ := key,
          keyInfo_ := (c.callOutput w.state connect
            (SMCKey.inputFrame { connect_ := connect, key_ := key } kSMCGetKeyInfo) {}).keyInfo }) ∧
    (∀ (c : Controller σ) (self : SMCKey) (w : World σ),
      0 < self.keyInfo_.dataSize → self.connect_ ≠ 0 →
      c.openStatus w.state self.connect_ = 0 →
      c.callStatus w.state self.connect_ (self.inputFrame kSMCReadKey) {} = kIOReturnSuccess →
      c.closeStatus w.state self.connect_ (self.inputFrame kSMCReadKey) {} ≠ 0 →
      (SMCKey.Read c self w).1 = SMCKey.ReadSwitch self.keyInfo_.dataType
          (c.callOutput w.state self.connect_ (self.inputFrame kSMCReadKey) {}) ∧
      (SMCKey.Read c self w).2.1 = { self with connect_ := 0 }) := by
  refine ⟨?_, ?_, ?_⟩
  · intro c self which out w hconn hopen
    rw [SMCKey.CallSMCFunction_opened c self which out w hconn hopen]
    exact ⟨by simp, rfl, rfl⟩
  · intro c connect key w hconn hopen hcall hclose
    rw [SMCKey.ctor_opened c connect key w hconn hopen, if_pos hcall, if_neg hclose]
  · intro c self w hsize hconn hopen hcall hclose
    rw [SMCKey.Read_opened c self w hsize hconn hopen, if_pos hcall, if_neg hclose]
    exact ⟨rfl, rfl⟩

/-- C6 on a controller whose every close fails: the read of the 42.5 bytes
still returns the pattern of 42.5 and the handle is zeroed. -/
theorem C6_failed_close_does_not_mask_witness :
    (SMCKey.Read (closeFailingController ⟨4, DataType.flt, 0⟩ bytesFloat42_5)
        ⟨1, SMCKeyId.TotalPower, ⟨4, DataType.flt, 0⟩⟩ ⟨(), []⟩).1
      = SMCKey.ReadSwitch DataType.flt
          ((closeFailingController ⟨4, DataType.flt, 0⟩ bytesFloat42_5).callOutput () 1
            (SMCKey.inputFrame ⟨1, SMCKeyId.TotalPower, ⟨4, DataType.flt, 0⟩⟩ kSMCReadKey) {}) ∧
    (SMCKey.Read (closeFailingController ⟨4, DataType.flt, 0⟩ bytesFloat42_5)
        ⟨1, SMCKeyId.TotalPower, ⟨4, DataType.flt, 0⟩⟩ ⟨(), []⟩).2.1
      = ⟨0, SMCKeyId.TotalPower, ⟨4, DataType.flt, 0⟩⟩ :=
  C6_failed_close_does_not_mask.2.2
    (closeFailingController ⟨4, DataType.flt, 0⟩ bytesFloat42_5)
    ⟨1, SMCKeyId.TotalPower, ⟨4, DataType.flt, 0⟩⟩ ⟨(), []⟩ (by decide) (by decide) (by decide)
    (by decide) (by decide)

/-- C8. Constructing with `connect = 0` and constructing with a non-null
handle whose first open fails give the same object: handle 0, the key, and
all-zero metadata. On that object `Exists()` is false and any number of
`Read` calls, against any controller, return `+0` and touch neither the object
nor the world. The null-handle constructor itself makes no controller call. -/
theorem C8_null_handle_like_failed_open (c c0 : Controller σ) (connect key : Nat)
    (w w0 : World σ) (hconn : connect ≠ 0) (hopen : c.openStatus w.state connect ≠ 0) :
    (SMCKey.ctor c0 0 key w0).1 = (SMCKey.ctor c connect key w).1 ∧
    (SMCKey.ctor c connect key w).1
      = { connect_ := 0, key_ := key, keyInfo_ := ⟨0, 0, 0⟩ } ∧
    (SMCKey.ctor c0 0 key w0).2 = w0 ∧
    (SMCKey.ctor c connect key w).1.Exists = false ∧
    (∀ (c' : Controller σ) (n : ℕ) (w' : World σ),
      SMCKey.ReadN c' n (SMCKey.ctor c connect key w).1 w'
        = (List.replicate n F32.zero, (SMCKey.ctor c connect key w).1, w')) := by
  rw [SMCKey.ctor_null, SMCKey.ctor_openFailed c connect key w hconn hopen]
  refine ⟨rfl, rfl, rfl, rfl, fun c' n w' => SMCKey.ReadN_null c' n _ w' rfl⟩

/-- C8 with handle 7 on the controller that refuses every call. -/
theorem C8_null_handle_like_failed_open_witness :
    (SMCKey.ctor deadController 0 SMCKeyId.CPUPower ⟨(), []⟩).1
      = (SMCKey.ctor deadController 7 SMCKeyId.CPUPower ⟨(), []⟩).1 :=
  (C8_null_handle_like_failed_open deadController deadController 7 SMCKeyId.CPUPower
    ⟨(), []⟩ ⟨(), []⟩ (by decide) (by decide)).1

/-- C10. On a non-null handle `CallSMCFunction` sends exactly `[open]` when the
open fails (then it zeroes the handle and returns failure), and exactly
`[open, struct call, close]` when the open is accepted, whatever the struct
call answers. Hence a `Read` adds to the trace nothing, one open, or one
open, one struct call and one close. -/
theorem C10_transaction_bracket :
    (∀ (c : Controller σ) (self : SMCKey) (which : Nat) (out : SMCParamStruct) (w : World σ),
      self.connect_ ≠ 0 →
      (c.openStatus w.state self.connect_ ≠ 0 →
        (SMCKey.CallSMCFunction c self which out w).world.trace
          = w.trace ++ [Op.method self.connect_ kSMCUserClientOpen] ∧
        (SMCKey.CallSMCFunction c self which out w).self.connect_ = 0 ∧
        (SMCKey.CallSMCFunction c self which out w).success = false) ∧
      (c.openStatus w.state self.connect_ = 0 →
        (SMCKey.CallSMCFunction c self which out w).world.trace
          = w.trace ++ [Op.method self.connect_ kSMCUserClientOpen,
              Op.structMethod self.connect_ kSMCHandleYPCEvent (self.inputFrame which),
              Op.method self.connect_ kSMCUserClientClose])) ∧
    (∀ (c : Controller σ) (self : SMCKey) (w : World σ),
      (SMCKey.Read c self w).2.2.trace = w.trace ∨
      (SMCKey.Read c self w).2.2.trace
        = w.trace ++ [Op.method self.connect_ kSMCUserClientOpen] ∨
      (SMCKey.Read c self w).2.2.trace
        = w.trace ++ [Op.method self.connect_ kSMCUserClientOpen,
            Op.structMethod self.connect_ kSMCHandleYPCEvent (self.inputFrame kSMCReadKey),
            Op.method self.connect_ kSMCUserClientClose]) := by
  refine ⟨?_, ?_⟩
  · intro c self which out w hconn
    refine ⟨fun hopen => ?_, fun hopen => ?_⟩
    · rw [SMCKey.CallSMCFunction_openFailed c self which out w hconn hopen]
      exact ⟨rfl, rfl, rfl⟩
    · rw [SMCKey.CallSMCFunction_opened c self which out w hconn hopen]
  · intro c self w
    by_cases hsize : self.keyInfo_.dataSize = 0
    · left; rw [SMCKey.Read_absent c self w hsize]
    · by_cases hconn : self.connect_ = 0
      · left; rw [SMCKey.Read_null c self w hconn]
      · by_cases hopen : c.openStatus w.state self.connect_ = 0
        · right; right
          rw [SMCKey.Read_opened c self w (by omega) hconn hopen]
        · right; left
          rw [SMCKey.Read_openFailed c self w (by omega) hconn hopen]

/-- C10 on the rejecting controller: a failed struct call is still followed by
the close. -/
theorem C10_transaction_bracket_witness :
    (SMCKey.CallSMCFunction rejectingController ⟨3, SMCKeyId.GPU0Power, {}⟩ kSMCGetKeyInfo {}
        ⟨(), []⟩).world.trace
      = [] ++ [Op.method 3 kSMCUserClientOpen,
          Op.structMethod 3 kSMCHandleYPCEvent
            (SMCKey.inputFrame ⟨3, SMCKeyId.GPU0Power, {}⟩ kSMCGetKeyInfo),
          Op.method 3 kSMCUserClientClose] :=
  (C10_transaction_bracket.1 rejectingController ⟨3, SMCKeyId.GPU0Power, {}⟩ kSMCGetKeyInfo {}
    ⟨(), []⟩ (by decide)).2 (by decide)

/-- C7. Against a controller whose answers are a fixed function of the
request, take the object `k0` the constructor builds and let any number `n` of
reads go by: the next two `Read` calls return the same float (`f1 = f2`), and
the cached metadata after each of them, and after the earlier reads, is what
the constructor left. -/
theorem C7_Read_idempotent (c : Controller σ) (hc : c.Fixed) (connect key : Nat)
    (w w0 w1 w2 w3 : World σ) (n : ℕ) (k0 k1 k2 k3 : SMCKey) (vs : List F32) (f1 f2 : F32)
    (h0 : SMCKey.ctor c connect key w = (k0, w0))
    (h1 : SMCKey.ReadN c n k0 w0 = (vs, k1, w1))
    (h2 : SMCKey.Read c k1 w1 = (f1, k2, w2))
    (h3 : SMCKey.Read c k2 w2 = (f2, k3, w3)) :
    f1 = f2 ∧ k1.keyInfo_ = k0.keyInfo_ ∧ k2.keyInfo_ = k0.keyInfo_ ∧
      k3.keyInfo_ = k0.keyInfo_ := by
  have hk : c.Settled k0 := by
    have h := SMCKey.ctor_settled c hc connect key w
    rwa [h0] at h
  have e1 : k1 = k0 := by
    have h := SMCKey.ReadN_settled c hc n k0 hk w0
    rw [h1] at h; exact h
  subst e1
  have r1 := SMCKey.Read_settled c hc k1 hk w1
  have e2 : k2 = k1 := by
    have h := r1.1
    rw [h2] at h; exact h
  subst e2
  have r2 := SMCKey.Read_settled c hc k2 hk w2
  have e3 : k3 = k2 := by
    have h := r2.1
    rw [h3] at h; exact h
  subst e3
  refine ⟨?_, rfl, rfl, rfl⟩
  have h := r1.2 w2
  rw [h2, h3] at h
  exact h

/-- C7 on the 42.5 mock, right after construction: both reads return the
pattern of 42.5 and the metadata stays (4, `'flt '`, 0). -/
theorem C7_Read_idempotent_witness :
    (mockController ⟨4, DataType.flt, 0⟩ bytesFloat42_5).Fixed ∧
    ((⟨0x422A0000⟩ : F32) = ⟨0x422A0000⟩ ∧
      (⟨1, SMCKeyId.TotalPower, ⟨4, DataType.flt, 0⟩⟩ : SMCKey).keyInfo_
        = (⟨1, SMCKeyId.TotalPower, ⟨4, DataType.flt, 0⟩⟩ : SMCKey).keyInfo_ ∧
      (⟨1, SMCKeyId.TotalPower, ⟨4, DataType.flt, 0⟩⟩ : SMCKey).keyInfo_
        = (⟨1, SMCKeyId.TotalPower, ⟨4, DataType.flt, 0⟩⟩ : SMCKey).keyInfo_ ∧
      (⟨1, SMCKeyId.TotalPower, ⟨4, DataType.flt, 0⟩⟩ : SMCKey).keyInfo_
        = (⟨1, SMCKeyId.TotalPower, ⟨4, DataType.flt, 0⟩⟩ : SMCKey).keyInfo_) :=
  ⟨⟨fun _ _ _ _ => rfl, fun _ _ _ _ _ _ => rfl⟩,
    C7_Read_idempotent (mockController ⟨4, DataType.flt, 0⟩ bytesFloat42_5)
      ⟨fun _ _ _ _ => rfl, fun _ _ _ _ _ _ => rfl⟩ 1 SMCKeyId.TotalPower
      ⟨(), []⟩
      (SMCKey.ctor (mockController ⟨4, DataType.flt, 0⟩ bytesFloat42_5) 1
        SMCKeyId.TotalPower ⟨(), []⟩).2
      (SMCKey.ctor (mockController ⟨4, DataType.flt, 0⟩ bytesFloat42_5) 1
        SMCKeyId.TotalPower ⟨(), []⟩).2
      (SMCKey.Read (mockController ⟨4, DataType.flt, 0⟩ bytesFloat42_5)
        ⟨1, SMCKeyId.TotalPower, ⟨4, DataType.flt, 0⟩⟩
        (SMCKey.ctor (mockController ⟨4, DataType.flt, 0⟩ bytesFloat42_5) 1
          SMCKeyId.TotalPower ⟨(), []⟩).2).2.2
      (SMCKey.Read (mockController ⟨4, DataType.flt, 0⟩ bytesFloat42_5)
        ⟨1, SMCKeyId.TotalPower, ⟨4, DataType.flt, 0⟩⟩
        (SMCKey.Read (mockController ⟨4, DataType.flt, 0⟩ bytesFloat42_5)
          ⟨1, SMCKeyId.TotalPower, ⟨4, DataType.flt, 0⟩⟩
          (SMCKey.ctor (mockController ⟨4, DataType.flt, 0⟩ bytesFloat42_5) 1
            SMCKeyId.TotalPower ⟨(), []⟩).2).2.2).2.2
      0
      ⟨1, SMCKeyId.TotalPower, ⟨4, DataType.flt, 0⟩⟩
      ⟨1, SMCKeyId.TotalPower, ⟨4, DataType.flt, 0⟩⟩
      ⟨1, SMCKeyId.TotalPower, ⟨4, DataType.flt, 0⟩⟩
      ⟨1, SMCKeyId.TotalPower, ⟨4, DataType.flt, 0⟩⟩
      [] ⟨0x422A0000⟩ ⟨0x422A0000⟩ rfl rfl rfl rfl⟩

/-- C9, as stated, fails. The object holds metadata `dataSize = 1`, tag
`'sp78'` (what the constructor stores when the controller reports it). Two
read transactions succeed; their output buffers agree on the first byte and
differ in byte 1. `Read` returns `0` for one and `1/256` for the other. -/
theorem C9_counterexample :
    (SMCKey.ctor (mockController ⟨1, DataType.sp78, 0⟩ (fun _ => 0)) 1
        SMCKeyId.TotalPower ⟨(), []⟩).1 = ⟨1, SMCKeyId.TotalPower, ⟨1, DataType.sp78, 0⟩⟩ ∧
    (SMCKey.ctor (mockController ⟨1, DataType.sp78, 0⟩ (fun i => if i = 1 then 1 else 0)) 1
        SMCKeyId.TotalPower ⟨(), []⟩).1 = ⟨1, SMCKeyId.TotalPower, ⟨1, DataType.sp78, 0⟩⟩ ∧
    (mockController ⟨1, DataType.sp78, 0⟩ (fun _ => 0)).openStatus () 1 = 0 ∧
    (mockController ⟨1, DataType.sp78, 0⟩ (fun _ => 0)).callStatus () 1
      (SMCKey.inputFrame ⟨1, SMCKeyId.TotalPower, ⟨1, DataType.sp78, 0⟩⟩ kSMCReadKey) {}
        = kIOReturnSuccess ∧
    (mockController ⟨1, DataType.sp78, 0⟩ (fun i => if i = 1 then 1 else 0)).openStatus () 1
      = 0 ∧
    (mockController ⟨1, DataType.sp78, 0⟩ (fun i => if i = 1 then 1 else 0)).callStatus () 1
      (SMCKey.inputFrame ⟨1, SMCKeyId.TotalPower, ⟨1, DataType.sp78, 0⟩⟩ kSMCReadKey) {}
        = kIOReturnSuccess ∧
    (∀ i : Fin 32, i.val < 1 →
      ((mockController ⟨1, DataType.sp78, 0⟩ (fun _ => 0)).callOutput () 1
        (SMCKey.inputFrame ⟨1, SMCKeyId.TotalPower, ⟨1, DataType.sp78, 0⟩⟩ kSMCReadKey)
          {}).bytes i
      = ((mockController ⟨1, DataType.sp78, 0⟩ (fun i => if i = 1 then 1 else 0)).callOutput
        () 1 (SMCKey.inputFrame ⟨1, SMCKeyId.TotalPower, ⟨1, DataType.sp78, 0⟩⟩ kSMCReadKey)
          {}).bytes i) ∧
    (SMCKey.Read (mockController ⟨1, DataType.sp78, 0⟩ (fun _ => 0))
        ⟨1, SMCKeyId.TotalPower, ⟨1, DataType.sp78, 0⟩⟩ ⟨(), []⟩).1.toRat = some 0 ∧
    (SMCKey.Read (mockController ⟨1, DataType.sp78, 0⟩ (fun i => if i = 1 then 1 else 0))
        ⟨1, SMCKeyId.TotalPower, ⟨1, DataType.sp78, 0⟩⟩ ⟨(), []⟩).1.toRat = some (1 / 256) ∧
    (SMCKey.Read (mockController ⟨1, DataType.sp78, 0⟩ (fun _ => 0))
        ⟨1, SMCKeyId.TotalPower, ⟨1, DataType.sp78, 0⟩⟩ ⟨(), []⟩).1
      ≠ (SMCKey.Read (mockController ⟨1, DataType.sp78, 0⟩ (fun i => if i = 1 then 1 else 0))
        ⟨1, SMCKeyId.TotalPower, ⟨1, DataType.sp78, 0⟩⟩ ⟨(), []⟩).1 := by
  have hA : (SMCKey.Read (mockController ⟨1, DataType.sp78, 0⟩ (fun _ => 0))
      ⟨1, SMCKeyId.TotalPower, ⟨1, DataType.sp78, 0⟩⟩ ⟨(), []⟩).1
      = FromSMCFixedPoint (SMCParamStruct.bytesPtr { bytes := fun _ => 0 }) 8 := by rfl
  have hB : (SMCKey.Read
      (mockController ⟨1, DataType.sp78, 0⟩ (fun i => if i = 1 then 1 else 0))
      ⟨1, SMCKeyId.TotalPower, ⟨1, DataType.sp78, 0⟩⟩ ⟨(), []⟩).1
      = FromSMCFixedPoint
          (SMCParamStruct.bytesPtr { bytes := fun i => if i = 1 then 1 else 0 }) 8 := by rfl
  have vA : toInt16 (OSReadBigInt16 (SMCParamStruct.bytesPtr { bytes := fun _ => 0 }) 0)
      = 0 := by decide
  have vB : toInt16 (OSReadBigInt16
      (SMCParamStruct.bytesPtr { bytes := fun i => if i = 1 then 1 else 0 }) 0) = 1 := by decide
  have tA : (SMCKey.Read (mockController ⟨1, DataType.sp78, 0⟩ (fun _ => 0))
      ⟨1, SMCKeyId.TotalPower, ⟨1, DataType.sp78, 0⟩⟩ ⟨(), []⟩).1.toRat = some 0 := by
    rw [hA, (FromSMCFixedPoint_value _ 8 (by norm_num)).1, vA]; norm_num
  have tB : (SMCKey.Read
      (mockController ⟨1, DataType.sp78, 0⟩ (fun i => if i = 1 then 1 else 0))
      ⟨1, SMCKeyId.TotalPower, ⟨1, DataType.sp78, 0⟩⟩ ⟨(), []⟩).1.toRat = some (1 / 256) := by
    rw [hB, (FromSMCFixedPoint_value _ 8 (by norm_num)).1, vB]; norm_num
  refine ⟨by decide, by decide, by decide, by decide, by decide, by decide, by decide,
    tA, tB, ?_⟩
  intro h
  rw [h, tB] at tA
  norm_num at tA

/-- C9, amended. When the cached `dataSize = n > 0` covers the encoding named
by the cached tag (`n ≥ 4` for `'flt '`, `n ≥ 2` for `'sp78'`, `'sp87'`, `'spa5'`;
any `n` for another tag), two successful read transactions whose output
buffers agree on their first `n` bytes make `Read` return the same value. -/
theorem C9_Read_depends_on_covered_bytes {σ₁ σ₂ : Type} (c₁ : Controller σ₁)
    (c₂ : Controller σ₂) (self : SMCKey) (w₁ : World σ₁) (w₂ : World σ₂) (n : ℕ)
    (hn : self.keyInfo_.dataSize = n) (hpos : 0 < n) (hconn : self.connect_ ≠ 0)
    (hopen₁ : c₁.openStatus w₁.state self.connect_ = 0)
    (hcall₁ : c₁.callStatus w₁.state self.connect_ (self.inputFrame kSMCReadKey) {}
      = kIOReturnSuccess)
    (hopen₂ : c₂.openStatus w₂.state self.connect_ = 0)
    (hcall₂ : c₂.callStatus w₂.state self.connect_ (self.inputFrame kSMCReadKey) {}
      = kIOReturnSuccess)
    (hagree : ∀ i : Fin 32, i.val < n →
      (c₁.callOutput w₁.state self.connect_ (self.inputFrame kSMCReadKey) {}).bytes i
        = (c₂.callOutput w₂.state self.connect_ (self.inputFrame kSMCReadKey) {}).bytes i)
    (hflt : self.keyInfo_.dataType = DataType.flt → 4 ≤ n)
    (hfix : self.keyInfo_.dataType = DataType.sp78 ∨ self.keyInfo_.dataType = DataType.sp87 ∨
      self.keyInfo_.dataType = DataType.spa5 → 2 ≤ n) :
    (SMCKey.Read c₁ self w₁).1 = (SMCKey.Read c₂ self w₂).1 := by
  rw [SMCKey.Read_opened c₁ self w₁ (by omega) hconn hopen₁, if_pos hcall₁,
    SMCKey.Read_opened c₂ self w₂ (by omega) hconn hopen₂, if_pos hcall₂]
  generalize c₁.callOutput w₁.state self.connect_ (self.inputFrame kSMCReadKey) {} = o₁ at *
  generalize c₂.callOutput w₂.state self.connect_ (self.inputFrame kSMCReadKey) {} = o₂ at *
  have hfixed : 2 ≤ n → ∀ fb, FromSMCFixedPoint o₁.bytesPtr fb = FromSMCFixedPoint o₂.bytesPtr fb := by
    intro h2 fb
    have e0 := hagree 0 (by simp; omega)
    have e1 := hagree 1 (by simp; omega)
    simp [FromSMCFixedPoint, OSReadBigInt16, SMCParamStruct.bytesPtr, e0, e1]
  simp only [SMCKey.ReadSwitch]
  split
  · rename_i h
    have h4 := hflt h
    have e0 := hagree 0 (by simp; omega)
    have e1 := hagree 1 (by simp; omega)
    have e2 := hagree 2 (by simp; omega)
    have e3 := hagree 3 (by show 3 < n; omega)
    simp [loadFloat, SMCParamStruct.bytesPtr, e0, e1, e2, e3]
  · split
    · rename_i h; exact hfixed (hfix (Or.inl h)) 8
    · split
      · rename_i h; exact hfixed (hfix (Or.inr (Or.inl h))) 7
      · split
        · rename_i h; exact hfixed (hfix (Or.inr (Or.inr h))) 5
        · rfl

/-- C9 amended, on two `sp78` reads of size 2 whose buffers differ only in
byte 2. -/
theorem C9_Read_depends_on_covered_bytes_witness :
    (SMCKey.Read (mockController ⟨2, DataType.sp78, 0⟩ bytesBig300)
        ⟨1, SMCKeyId.TotalPower, ⟨2, DataType.sp78, 0⟩⟩ ⟨(), []⟩).1
      = (SMCKey.Read (mockController ⟨2, DataType.sp78, 0⟩
          (fun i => if i = 2 then 0xFF else bytesBig300 i))
        ⟨1, SMCKeyId.TotalPower, ⟨2, DataType.sp78, 0⟩⟩ ⟨(), []⟩).1 :=
  C9_Read_depends_on_covered_bytes (mockController ⟨2, DataType.sp78, 0⟩ bytesBig300)
    (mockController ⟨2, DataType.sp78, 0⟩ (fun i => if i = 2 then 0xFF else bytesBig300 i))
    ⟨1, SMCKeyId.TotalPower, ⟨2, DataType.sp78, 0⟩⟩ ⟨(), []⟩ ⟨(), []⟩ 2
    (by decide) (by decide) (by decide) (by decide) (by decide) (by decide) (by decide)
    (by decide) (by decide) (by decide)

end Syspower
